import Mathlib

/-!
Shallow embedding of `google/api_core/iam.py` (IAM `Policy` mapping object).

Python strings are modelled as objects carrying an identity tag, because the
source compares roles with the `is` operator (object identity), not `==`.
Bindings are Python dicts with keys `role` and `members`, which may in
addition acquire a stray `member` key (the source's `__setitem__` writes
`binding['member'] = value` on the replace path).  Exceptions are modelled
with `Except`; the `_bindings` attribute may hold a tuple (from
`from_api_repr`'s default `()`), recorded by a flag, since tuples lack the
`append` and `remove` methods used by `__setitem__` and `__delitem__`.
-/

deriving instance DecidableEq for Except

namespace Iam

/-- A Python string object: `id` models object identity (the `is` operator),
`val` the string value (the `==` operator). -/
structure PyStr where
  id : Nat
  val : String
deriving DecidableEq, Repr

/-- Python `a is b` on two string objects: object identity. -/
def pyIs (a b : PyStr) : Bool := a.id == b.id

/-- Python `a == b` on two string objects: value equality. -/
def pyEq (a b : PyStr) : Bool := a.val == b.val

/-- A binding dict.  Keys `role` and `members` are always present; `member`
(singular) is the stray key written by `__setitem__`'s replace branch
(`binding['member'] = value`), absent (`none`) until that happens. -/
structure Binding where
  role : PyStr
  members : List String
  member : Option (List String) := none
deriving DecidableEq, Repr

/-- Python dict equality of two binding dicts: same key set and equal values
(roles compared by string value, as dict `==` compares values with `==`). -/
def bindingEq (a b : Binding) : Bool :=
  pyEq a.role b.role && a.members == b.members && a.member == b.member

/-- Exceptions the module can raise. -/
inductive PyError where
  | invalidOperation
  | keyError (key : PyStr)
  | attributeError
deriving DecidableEq, Repr

/-- State of a `Policy` instance.  `tupleBindings` records whether `_bindings`
currently holds a tuple (as set by `from_api_repr`'s default `()`), which has
no `append`/`remove` methods, rather than a list. -/
structure Policy where
  etag : Option String := none
  version : Option Int := none
  bindings : List Binding := []
  tupleBindings : Bool := false
deriving DecidableEq, Repr

/-- Module constant `OWNER_ROLE = "roles/owner"` (one fixed string object). -/
def OWNER_ROLE : PyStr := ⟨0, "roles/owner"⟩

/-- Module constant `EDITOR_ROLE = "roles/editor"`. -/
def EDITOR_ROLE : PyStr := ⟨1, "roles/editor"⟩

/-- Module constant `VIEWER_ROLE = "roles/viewer"`. -/
def VIEWER_ROLE : PyStr := ⟨2, "roles/viewer"⟩

/-- Class attribute `_OWNER_ROLES = (OWNER_ROLE,)`. -/
def Policy.ownerRoles : List PyStr := [OWNER_ROLE]

/-- Class attribute `_EDITOR_ROLES = (EDITOR_ROLE,)`. -/
def Policy.editorRoles : List PyStr := [EDITOR_ROLE]

/-- Class attribute `_VIEWER_ROLES = (VIEWER_ROLE,)`. -/
def Policy.viewerRoles : List PyStr := [VIEWER_ROLE]

/-- Embedding of `Policy.__check_version__`: raise `InvalidOperationException`
when `self.version is not None and self.version > 1`. -/
def Policy.check_version (p : Policy) : Except PyError Unit :=
  match p.version with
  | some v => if 1 < v then .error .invalidOperation else .ok ()
  | none => .ok ()

/-- Embedding of Python `list(set(value))`: deduplicate a member list.  (The
iteration order of a Python set is unspecified; no claim depends on the order
of the stored list, so the first-occurrence order is used.) -/
def pySetList (value : List String) : List String := value.dedup

/-- Embedding of `Policy.__getitem__`: version gate, then linear scan for the
first binding with `b['role'] is key`, returning `set(b['members'])`; an empty
set when no binding matches. -/
def Policy.getitem (p : Policy) (key : PyStr) : Except PyError (Finset String) :=
  match p.check_version with
  | .error e => .error e
  | .ok () =>
    match p.bindings.find? (fun b => pyIs b.role key) with
    | some b => .ok b.members.toFinset
    | none => .ok ∅

/-- Helper for `__setitem__`'s loop: mutate the first binding whose role `is`
`key` by writing the stray `member` key (`binding['member'] = value`);
`none` when no binding matches. -/
def setFirstMatch (key : PyStr) (v : List String) : List Binding → Option (List Binding)
  | [] => none
  | b :: rest =>
    if pyIs b.role key then some ({ b with member := some v } :: rest)
    else (setFirstMatch key v rest).map (b :: ·)

/-- Embedding of `Policy.__setitem__`: version gate; `value = list(set(value))`;
scan for a binding with `binding['role'] is key` and, if found, execute
`binding['member'] = value` (note the singular key) and return; otherwise
`self._bindings.append({'role': key, 'members': value})`, which raises
`AttributeError` when `_bindings` is a tuple. -/
def Policy.setitem (p : Policy) (key : PyStr) (value : List String) : Except PyError Policy :=
  match p.check_version with
  | .error e => .error e
  | .ok () =>
    match setFirstMatch key (pySetList value) p.bindings with
    | some bs => .ok { p with bindings := bs }
    | none =>
      if p.tupleBindings then .error .attributeError
      else .ok { p with bindings := p.bindings ++ [{ role := key, members := pySetList value }] }

/-- Embedding of Python `list.remove(b)`: delete the first element `==`-equal
to `b` (dict equality on bindings). -/
def eraseFirstEq (b : Binding) : List Binding → List Binding
  | [] => []
  | x :: rest => if bindingEq x b then rest else x :: eraseFirstEq b rest

/-- Embedding of `Policy.__delitem__`: version gate; scan for the first
binding with `b['role'] is key`; if found, `self._bindings.remove(b)`
(raises `AttributeError` on a tuple); otherwise `raise KeyError(key)`. -/
def Policy.delitem (p : Policy) (key : PyStr) : Except PyError Policy :=
  match p.check_version with
  | .error e => .error e
  | .ok () =>
    match p.bindings.find? (fun b => pyIs b.role key) with
    | some b =>
      if p.tupleBindings then .error .attributeError
      else .ok { p with bindings := eraseFirstEq b p.bindings }
    | none => .error (.keyError key)

/-- Embedding of `Policy.__iter__` (materialised): version gate, then the
role of each binding in list order. -/
def Policy.iterRoles (p : Policy) : Except PyError (List PyStr) :=
  match p.check_version with
  | .error e => .error e
  | .ok () => .ok (p.bindings.map (·.role))

/-- Embedding of `Policy.__len__`: version gate, then `len(self._bindings)`. -/
def Policy.len (p : Policy) : Except PyError Nat :=
  match p.check_version with
  | .error e => .error e
  | .ok () => .ok p.bindings.length

/-- Embedding of the `bindings` property getter: `return self._bindings`,
with no version check and no possibility of raising. -/
def Policy.bindingsAccessor (p : Policy) : Except PyError (List Binding) :=
  .ok p.bindings

/-- Embedding of the loop body shared by the `owners`/`editors`/`viewers`
getters: `result = set(); for role in roles: for member in self.get(role, ()):
result.add(member); return frozenset(result)`.  `self.get` delegates to
`__getitem__` (which never raises `KeyError`, so the default is unused, but
its version-gate exception propagates). -/
def Policy.legacyUnion (p : Policy) (roles : List PyStr) (acc : Finset String) :
    Except PyError (Finset String) :=
  match roles with
  | [] => .ok acc
  | r :: rest =>
    match p.getitem r with
    | .error e => .error e
    | .ok s => p.legacyUnion rest (acc ∪ s)

/-- Embedding of the `owners` property getter. -/
def Policy.owners (p : Policy) : Except PyError (Finset String) :=
  p.legacyUnion Policy.ownerRoles ∅

/-- Embedding of the `editors` property getter. -/
def Policy.editors (p : Policy) : Except PyError (Finset String) :=
  p.legacyUnion Policy.editorRoles ∅

/-- Embedding of the `viewers` property getter. -/
def Policy.viewers (p : Policy) : Except PyError (Finset String) :=
  p.legacyUnion Policy.viewerRoles ∅

/-- Embedding of the `owners` property setter: emit a `DeprecationWarning`
(the Boolean component records that the warning was emitted) and then run
`self[OWNER_ROLE] = value`. -/
def Policy.setOwners (p : Policy) (value : List String) : Bool × Except PyError Policy :=
  (true, p.setitem OWNER_ROLE value)

/-- Embedding of the `editors` property setter. -/
def Policy.setEditors (p : Policy) (value : List String) : Bool × Except PyError Policy :=
  (true, p.setitem EDITOR_ROLE value)

/-- Embedding of the `viewers` property setter. -/
def Policy.setViewers (p : Policy) (value : List String) : Bool × Except PyError Policy :=
  (true, p.setitem VIEWER_ROLE value)

/-- Embedding of the static factory `Policy.user`: `"user:%s" % (email,)`. -/
def Policy.user (email : String) : String := "user:" ++ email

/-- Embedding of the static factory `Policy.service_account`. -/
def Policy.service_account (email : String) : String := "serviceAccount:" ++ email

/-- Embedding of the static factory `Policy.group`. -/
def Policy.group (email : String) : String := "group:" ++ email

/-- Embedding of the static factory `Policy.domain`. -/
def Policy.domain (d : String) : String := "domain:" ++ d

/-- Embedding of the static factory `Policy.all_users`. -/
def Policy.all_users : String := "allUsers"

/-- Embedding of the static factory `Policy.authenticated_users`. -/
def Policy.authenticated_users : String := "allAuthenticatedUsers"

/-- A JSON-shaped policy resource: optional `etag`, `version` and `bindings`
fields (`none` means the key is absent from the dict). -/
structure Resource where
  etag : Option String := none
  version : Option Int := none
  bindings : Option (List Binding) := none
deriving DecidableEq, Repr

/-- Embedding of the classmethod `Policy.from_api_repr`: read `version` and
`etag` with `.get` (absent becomes `None`), construct `cls(etag, version)`,
then assign `policy.bindings = resource.get("bindings", ())` — the default is
the empty tuple `()`, recorded by `tupleBindings`. -/
def Policy.from_api_repr (r : Resource) : Policy :=
  { etag := r.etag
    version := r.version
    bindings := r.bindings.getD []
    tupleBindings := r.bindings.isNone }

/-- Embedding of `Policy.to_api_repr`: start from an empty dict, add `etag`
and `version` when not `None`, and add `bindings` only when
`self._bindings and len(self._bindings) > 0` (i.e. the sequence is
non-empty). -/
def Policy.to_api_repr (p : Policy) : Resource :=
  { etag := p.etag
    version := p.version
    bindings := if p.bindings.isEmpty then none else some p.bindings }

/-- Number of bindings in a list whose role object is identical (`is`) to `key`. -/
def countRoleL (key : PyStr) (l : List Binding) : Nat :=
  (l.filter (fun b => pyIs b.role key)).length

/-- Number of bindings whose role object is identical (Python `is`) to `key`. -/
def countRole (p : Policy) (key : PyStr) : Nat :=
  countRoleL key p.bindings

/-- Run one `policy[key] = value` statement; a raised exception leaves the
state unchanged. -/
def setStep (p : Policy) (key : PyStr) (v : List String) : Policy :=
  match p.setitem key v with
  | .ok p' => p'
  | .error _ => p

/-- Run a sequence of `policy[key] = value` statements. -/
def setSeq (p : Policy) (key : PyStr) : List (List String) → Policy
  | [] => p
  | v :: vs => setSeq (setStep p key v) key vs

/-- Number of bindings in a list whose role string is `==`-equal to `s`. -/
def countValL (s : String) (l : List Binding) : Nat :=
  (l.filter (fun b => b.role.val == s)).length

/-- Member set stored for a role: the deduplicated `members` entry of the
first binding whose role object is identical to `r`, else the empty set. -/
def roleMembersSet (p : Policy) (r : PyStr) : Finset String :=
  match p.bindings.find? (fun b => pyIs b.role r) with
  | some b => b.members.toFinset
  | none => ∅

/-- Union of the stored member sets across a list of roles. -/
def rolesUnion (p : Policy) (roles : List PyStr) : Finset String :=
  roles.foldl (fun acc r => acc ∪ roleMembersSet p r) ∅

lemma check_version_cases (p : Policy) :
    p.check_version = .ok () ∨ p.check_version = .error .invalidOperation := by
  unfold Policy.check_version
  cases p.version with
  | none => exact Or.inl rfl
  | some v =>
    by_cases h : 1 < v
    · exact Or.inr (by simp [h])
    · exact Or.inl (by simp [h])

lemma check_version_error_iff (p : Policy) :
    p.check_version = .error .invalidOperation ↔ ∃ n, p.version = some n ∧ 2 ≤ n := by
  unfold Policy.check_version
  cases hv : p.version with
  | none => simp
  | some v =>
    by_cases h : 1 < v <;> simp [h] <;> omega

lemma getitem_invalid_iff (p : Policy) (key : PyStr) :
    p.getitem key = .error .invalidOperation ↔ p.check_version = .error .invalidOperation := by
  rcases check_version_cases p with h | h
  · cases hf : p.bindings.find? (fun b => pyIs b.role key) <;>
      simp [Policy.getitem, h, hf]
  · simp [Policy.getitem, h]

lemma setitem_invalid_iff (p : Policy) (key : PyStr) (v : List String) :
    p.setitem key v = .error .invalidOperation ↔ p.check_version = .error .invalidOperation := by
  rcases check_version_cases p with h | h
  · cases hm : setFirstMatch key (pySetList v) p.bindings
    · cases ht : p.tupleBindings <;> simp [Policy.setitem, h, hm, ht]
    · simp [Policy.setitem, h, hm]
  · simp [Policy.setitem, h]

lemma delitem_invalid_iff (p : Policy) (key : PyStr) :
    p.delitem key = .error .invalidOperation ↔ p.check_version = .error .invalidOperation := by
  rcases check_version_cases p with h | h
  · cases hf : p.bindings.find? (fun b => pyIs b.role key)
    · simp [Policy.delitem, h, hf]
    · cases ht : p.tupleBindings <;> simp [Policy.delitem, h, hf, ht]
  · simp [Policy.delitem, h]

lemma iterRoles_invalid_iff (p : Policy) :
    p.iterRoles = .error .invalidOperation ↔ p.check_version = .error .invalidOperation := by
  rcases check_version_cases p with h | h <;> simp [Policy.iterRoles, h]

lemma len_invalid_iff (p : Policy) :
    p.len = .error .invalidOperation ↔ p.check_version = .error .invalidOperation := by
  rcases check_version_cases p with h | h <;> simp [Policy.len, h]

/-- C1 concrete input: the role string object of the pre-existing binding. -/
def c1role : PyStr := ⟨3, "roles/x"⟩

/-- C1 concrete input: a policy already holding a binding for `c1role`. -/
def c1pol : Policy := { bindings := [{ role := c1role, members := ["user:old"] }] }

/-- C1: evaluating the code at a concrete failing input.  The policy already
holds a binding for the role; `policy[role] = ["user:new"]` succeeds but
writes the stray `member` key (`binding['member'] = value`), leaving
`binding['members']` untouched, so the subsequent `policy[role]` returns the
OLD member set `{"user:old"}` instead of the deduplicated new member set
`{"user:new"}` that the claim requires. -/
theorem c1_set_then_get_returns_stale_members :
    (Policy.setitem c1pol c1role ["user:new"] >>= fun p1 => p1.getitem c1role)
      = .ok ({"user:old"} : Finset String)
    ∧ ({"user:old"} : Finset String) ≠ (pySetList ["user:new"]).toFinset := by
  decide

/-- C3 counterexample input: a policy with `version = 2` (gate active). -/
def c3pol : Policy := { version := some 2, bindings := [{ role := ⟨5, "roles/a"⟩, members := ["user:a"] }] }

/-- C3 counterexample: on a policy with `version = 2` the version gate is
active (`__getitem__` raises `InvalidOperationException`), yet the `bindings`
property accessor performs the access anyway and returns the binding list —
it does not fail with the unsupported-version error as the claim states. -/
theorem c3_bindings_accessor_not_gated :
    c3pol.version = some 2
    ∧ c3pol.getitem ⟨5, "roles/a"⟩ = .error .invalidOperation
    ∧ c3pol.bindingsAccessor = .ok c3pol.bindings := by
  decide

/-- C3 (amended): `get`, `set`, `delete`, iteration and length fail with
`InvalidOperationException` exactly when the version gate is active, the gate
is active exactly when `version` is set to 2 or greater, and the `bindings`
accessor is not gated: it returns the binding list unconditionally. -/
theorem c3_version_gate (p : Policy) (key : PyStr) (v : List String) :
    (p.getitem key = .error .invalidOperation ↔ p.check_version = .error .invalidOperation)
    ∧ (p.setitem key v = .error .invalidOperation ↔ p.check_version = .error .invalidOperation)
    ∧ (p.delitem key = .error .invalidOperation ↔ p.check_version = .error .invalidOperation)
    ∧ (p.iterRoles = .error .invalidOperation ↔ p.check_version = .error .invalidOperation)
    ∧ (p.len = .error .invalidOperation ↔ p.check_version = .error .invalidOperation)
    ∧ p.bindingsAccessor = .ok p.bindings
    ∧ (p.check_version = .error .invalidOperation ↔ ∃ n, p.version = some n ∧ 2 ≤ n) :=
  ⟨getitem_invalid_iff p key, setitem_invalid_iff p key v, delitem_invalid_iff p key,
   iterRoles_invalid_iff p, len_invalid_iff p, rfl, check_version_error_iff p⟩

/-- C5: round trip.  For a resource whose `bindings` field is present and
non-empty, `to_api_repr` after `from_api_repr` reproduces the resource
exactly: `etag` and `version` pass through unchanged (absent stays absent),
and the binding list is emitted because it is non-empty. -/
theorem c5_round_trip (r : Resource) (l : List Binding)
    (h : r.bindings = some l) (hne : l ≠ []) :
    Policy.to_api_repr (Policy.from_api_repr r) = r := by
  cases r with
  | mk e v b =>
    simp only at h
    subst h
    cases l with
    | nil => exact absurd rfl hne
    | cons a t =>
      simp [Policy.from_api_repr, Policy.to_api_repr]

/-- C5 witness input: a resource with all three fields present. -/
def c5res : Resource :=
  { etag := some "etag-1"
    version := some 1
    bindings := some [{ role := ⟨7, "roles/a"⟩, members := ["user:a", "group:g"] }] }

/-- C5 witness: the round-trip theorem applied to a concrete resource. -/
theorem c5_round_trip_witness :
    c5res.bindings = some [{ role := ⟨7, "roles/a"⟩, members := ["user:a", "group:g"] }]
    ∧ ([{ role := ⟨7, "roles/a"⟩, members := ["user:a", "group:g"] }] : List Binding) ≠ []
    ∧ Policy.to_api_repr (Policy.from_api_repr c5res) = c5res :=
  ⟨rfl, by decide, c5_round_trip c5res _ rfl (by decide)⟩

/-- C6: the rendered resource carries the `etag` key exactly when the
policy's etag is non-`None`, the `version` key exactly when the version is
non-`None`, and the `bindings` key exactly when the binding list is
non-empty; absent fields are omitted (no key at all). -/
theorem c6_to_api_repr_field_presence (p : Policy) :
    ((p.to_api_repr).etag.isSome ↔ p.etag.isSome)
    ∧ ((p.to_api_repr).version.isSome ↔ p.version.isSome)
    ∧ ((p.to_api_repr).etag = p.etag)
    ∧ ((p.to_api_repr).version = p.version)
    ∧ ((p.to_api_repr).bindings.isSome ↔ p.bindings ≠ []) := by
  refine ⟨Iff.rfl, Iff.rfl, rfl, rfl, ?_⟩
  unfold Policy.to_api_repr
  cases p.bindings <;> simp

/-- C8 concrete input: a resource dict with no `bindings` key at all. -/
def c8resource : Resource := {}

/-- C8 concrete input: a fresh role string object. -/
def c8role : PyStr := ⟨3, "roles/new"⟩

/-- C8: evaluating the code at the failing input.  `from_api_repr` of a
resource without a `bindings` key sets `_bindings` to the default empty tuple
`()`; the version gate permits access (`version` is unset), yet
`policy[role] = members` fails with `AttributeError` (tuples have no
`append`), a failure mode outside the claimed taxonomy of version-gate and
key-not-found errors. -/
theorem c8_set_after_from_api_repr_raises :
    (Policy.from_api_repr c8resource).check_version = .ok ()
    ∧ (Policy.from_api_repr c8resource).version = none
    ∧ (Policy.from_api_repr c8resource).bindings = []
    ∧ Policy.setitem (Policy.from_api_repr c8resource) c8role ["user:a"]
        = .error .attributeError := by
  decide

lemma pyIs_self (a : PyStr) : pyIs a a = true := by
  simp [pyIs]

lemma bindingEq_refl (b : Binding) : bindingEq b b = true := by
  simp [bindingEq, pyEq]

lemma setFirstMatch_none_forall (key : PyStr) (v : List String) :
    ∀ l, setFirstMatch key v l = none → ∀ b ∈ l, pyIs b.role key = false := by
  intro l
  induction l with
  | nil => intro _ b hb; cases hb
  | cons a rest ih =>
    intro h b hb
    unfold setFirstMatch at h
    cases hc : pyIs a.role key with
    | true => rw [if_pos hc] at h; cases h
    | false =>
      rw [if_neg (by simp [hc])] at h
      rcases List.mem_cons.mp hb with h1 | h1
      · subst h1; exact hc
      · exact ih (by simpa using h) b h1

lemma setFirstMatch_none_of_forall (key : PyStr) (v : List String) :
    ∀ l, (∀ b ∈ l, pyIs b.role key = false) → setFirstMatch key v l = none := by
  intro l
  induction l with
  | nil => intro _; rfl
  | cons a rest ih =>
    intro hall
    unfold setFirstMatch
    rw [if_neg (by simp [hall a (List.mem_cons_self a rest)])]
    rw [ih (fun b hb => hall b (List.mem_cons_of_mem a hb))]
    rfl

lemma setFirstMatch_some_count (key : PyStr) (v : List String) :
    ∀ l l', setFirstMatch key v l = some l' → countRoleL key l' = countRoleL key l := by
  intro l
  induction l with
  | nil => intro l' h; cases h
  | cons a rest ih =>
    intro l' h
    unfold setFirstMatch at h
    cases hc : pyIs a.role key with
    | true =>
      rw [if_pos hc] at h
      injection h with h
      subst h
      simp [countRoleL, List.filter_cons, hc]
    | false =>
      rw [if_neg (by simp [hc])] at h
      cases hr : setFirstMatch key v rest with
      | none => rw [hr] at h; cases h
      | some bs =>
        rw [hr] at h
        injection h with h
        subst h
        simp only [countRoleL, List.filter_cons, hc, cond_false, if_neg]
        simpa [countRoleL] using ih bs hr

lemma countRoleL_append (key : PyStr) (l1 l2 : List Binding) :
    countRoleL key (l1 ++ l2) = countRoleL key l1 + countRoleL key l2 := by
  simp [countRoleL, List.filter_append]

/-- One `set` call never pushes the number of bindings for the written role
object above one when it was at most one before. -/
lemma setStep_count_le (p : Policy) (key : PyStr) (v : List String)
    (h : countRole p key ≤ 1) : countRole (setStep p key v) key ≤ 1 := by
  rcases check_version_cases p with hg | hg
  · cases hm : setFirstMatch key (pySetList v) p.bindings with
    | some bs =>
      simp only [setStep, Policy.setitem, hg, hm, countRole]
      rw [setFirstMatch_some_count key (pySetList v) p.bindings bs hm]
      exact h
    | none =>
      cases ht : p.tupleBindings
      · have hall := setFirstMatch_none_forall key (pySetList v) p.bindings hm
        have hz : countRoleL key p.bindings = 0 := by
          simp only [countRoleL, List.length_eq_zero]
          exact List.filter_eq_nil_iff.mpr (fun b hb => by simp [hall b hb])
        simp only [setStep, Policy.setitem, hg, hm, ht, countRole, Bool.false_eq_true,
          if_false, countRoleL_append, hz]
        simp [countRoleL, pyIs_self]
      · simp only [setStep, Policy.setitem, hg, hm, ht, if_true]
        exact h
  · simp only [setStep, Policy.setitem, hg]
    exact h

/-- C2: after any sequence of `policy[role] = members` statements for one
role object, the policy holds at most one binding whose role is that object,
provided the at-most-one-binding invariant held for it beforehand (repeated
sets replace in place rather than accumulate; the first set appends the one
binding). -/
theorem c2_at_most_one_binding_per_role (p : Policy) (key : PyStr)
    (ms : List (List String)) (h : countRole p key ≤ 1) :
    countRole (setSeq p key ms) key ≤ 1 := by
  induction ms generalizing p with
  | nil => exact h
  | cons v vs ih => exact ih (setStep p key v) (setStep_count_le p key v h)

/-- C2 witness inputs. -/
def c2key : PyStr := ⟨3, "roles/x"⟩

/-- C2 witness policy: starts empty. -/
def c2pol : Policy := {}

/-- C2 witness: the invariant theorem applied to a concrete run of three
sets for the same role object. -/
theorem c2_at_most_one_binding_witness :
    countRole c2pol c2key ≤ 1
    ∧ countRole (setSeq c2pol c2key [["user:a", "user:a"], ["user:b"], ["user:c"]]) c2key ≤ 1 :=
  ⟨by decide,
   c2_at_most_one_binding_per_role c2pol c2key [["user:a", "user:a"], ["user:b"], ["user:c"]]
     (by decide)⟩

lemma eraseFirstEq_spec (b : Binding) :
    ∀ l : List Binding, (∃ x ∈ l, bindingEq x b = true) →
      ∃ l1 x l2, l = l1 ++ x :: l2 ∧ bindingEq x b = true ∧
        (∀ y ∈ l1, bindingEq y b = false) ∧ eraseFirstEq b l = l1 ++ l2 := by
  intro l
  induction l with
  | nil => rintro ⟨x, hx, _⟩; cases hx
  | cons a rest ih =>
    rintro ⟨x, hx, hxb⟩
    cases hc : bindingEq a b with
    | true =>
      exact ⟨[], a, rest, rfl, hc, by simp, by simp [eraseFirstEq, hc]⟩
    | false =>
      have hxr : x ∈ rest := by
        rcases List.mem_cons.mp hx with h1 | h1
        · subst h1; rw [hc] at hxb; cases hxb
        · exact h1
      obtain ⟨l1, y, l2, heq, hyb, hl1, herase⟩ := ih ⟨x, hxr, hxb⟩
      refine ⟨a :: l1, y, l2, by rw [heq]; rfl, hyb, ?_, ?_⟩
      · intro z hz
        rcases List.mem_cons.mp hz with h1 | h1
        · subst h1; exact hc
        · exact hl1 z h1
      · simp [eraseFirstEq, hc, herase]

/-- C4: with the version gate permitting access, `del policy[role]` on a role
matching no binding raises `KeyError(role)` and (being a raised exception
before any mutation) leaves the binding list exactly unchanged; when a
binding matches, the operation removes exactly one binding — one equal to the
matched binding — and keeps every other binding in place. -/
theorem c4_delete_semantics (p : Policy) (key : PyStr)
    (h : p.check_version = .ok ()) :
    ((∀ b ∈ p.bindings, pyIs b.role key = false) →
      p.delitem key = .error (.keyError key))
    ∧ (∀ b, p.bindings.find? (fun x => pyIs x.role key) = some b →
        p.tupleBindings = false →
        ∃ l1 x l2, p.bindings = l1 ++ x :: l2 ∧ bindingEq x b = true ∧
          (∀ y ∈ l1, bindingEq y b = false) ∧
          p.delitem key = .ok { p with bindings := l1 ++ l2 }) := by
  constructor
  · intro hall
    have hf : p.bindings.find? (fun b => pyIs b.role key) = none :=
      List.find?_eq_none.mpr (fun x hx => by simp [hall x hx])
    simp [Policy.delitem, h, hf]
  · intro b hf ht
    have hmem : b ∈ p.bindings := List.mem_of_find?_eq_some hf
    obtain ⟨l1, x, l2, heq, hxb, hl1, herase⟩ :=
      eraseFirstEq_spec b p.bindings ⟨b, hmem, bindingEq_refl b⟩
    refine ⟨l1, x, l2, heq, hxb, hl1, ?_⟩
    simp [Policy.delitem, h, hf, ht, herase]

/-- C4 witness policy: two bindings. -/
def c4pol : Policy :=
  { bindings := [{ role := ⟨5, "roles/a"⟩, members := ["user:a"] },
                 { role := ⟨6, "roles/b"⟩, members := ["user:b"] }] }

/-- C4 witness: a role object matching no binding. -/
def c4missing : PyStr := ⟨9, "roles/none"⟩

/-- C4 witness: the role object of the second binding. -/
def c4present : PyStr := ⟨6, "roles/b"⟩

/-- C4 witness: the delete theorem applied to concrete inputs, covering both
the missing-role branch and the present-role branch. -/
theorem c4_delete_semantics_witness :
    c4pol.check_version = .ok ()
    ∧ c4pol.delitem c4missing = .error (.keyError c4missing)
    ∧ (∃ l1 x l2, c4pol.bindings = l1 ++ x :: l2
        ∧ bindingEq x { role := ⟨6, "roles/b"⟩, members := ["user:b"] } = true
        ∧ (∀ y ∈ l1, bindingEq y { role := ⟨6, "roles/b"⟩, members := ["user:b"] } = false)
        ∧ c4pol.delitem c4present = .ok { c4pol with bindings := l1 ++ l2 }) :=
  ⟨rfl,
   (c4_delete_semantics c4pol c4missing rfl).1 (by decide),
   (c4_delete_semantics c4pol c4present rfl).2
     { role := ⟨6, "roles/b"⟩, members := ["user:b"] } (by decide) rfl⟩

lemma getitem_ok (p : Policy) (key : PyStr) (h : p.check_version = .ok ()) :
    p.getitem key = .ok (roleMembersSet p key) := by
  cases hf : p.bindings.find? (fun b => pyIs b.role key) <;>
    simp [Policy.getitem, roleMembersSet, h, hf]

lemma legacyUnion_ok (p : Policy) (h : p.check_version = .ok ()) :
    ∀ (roles : List PyStr) (acc : Finset String),
      p.legacyUnion roles acc
        = .ok (roles.foldl (fun a r => a ∪ roleMembersSet p r) acc) := by
  intro roles
  induction roles with
  | nil => intro acc; rfl
  | cons r rest ih =>
    intro acc
    simp only [Policy.legacyUnion, getitem_ok p r h, List.foldl_cons]
    exact ih (acc ∪ roleMembersSet p r)

/-- C7: with the version gate permitting access, the `owners`, `editors` and
`viewers` getters each return the union of the stored member sets of their
fixed mapped role lists (`_OWNER_ROLES = ("roles/owner",)` and so on), and
each legacy setter emits the deprecation warning (Boolean flag) and performs
exactly the `policy[role] = value` call on the single corresponding role. -/
theorem c7_legacy_accessors (p : Policy) (h : p.check_version = .ok ()) :
    p.owners = .ok (rolesUnion p Policy.ownerRoles)
    ∧ p.editors = .ok (rolesUnion p Policy.editorRoles)
    ∧ p.viewers = .ok (rolesUnion p Policy.viewerRoles)
    ∧ Policy.ownerRoles = [OWNER_ROLE] ∧ OWNER_ROLE.val = "roles/owner"
    ∧ Policy.editorRoles = [EDITOR_ROLE] ∧ EDITOR_ROLE.val = "roles/editor"
    ∧ Policy.viewerRoles = [VIEWER_ROLE] ∧ VIEWER_ROLE.val = "roles/viewer"
    ∧ (∀ v, p.setOwners v = (true, p.setitem OWNER_ROLE v))
    ∧ (∀ v, p.setEditors v = (true, p.setitem EDITOR_ROLE v))
    ∧ (∀ v, p.setViewers v = (true, p.setitem VIEWER_ROLE v)) :=
  ⟨legacyUnion_ok p h Policy.ownerRoles ∅,
   legacyUnion_ok p h Policy.editorRoles ∅,
   legacyUnion_ok p h Policy.viewerRoles ∅,
   rfl, rfl, rfl, rfl, rfl, rfl,
   fun _ => rfl, fun _ => rfl, fun _ => rfl⟩

/-- C7 witness policy: one binding per generic role. -/
def c7pol : Policy :=
  { bindings := [{ role := OWNER_ROLE, members := ["user:a"] },
                 { role := EDITOR_ROLE, members := ["user:b"] },
                 { role := VIEWER_ROLE, members := ["user:c"] }] }

/-- C7 witness: the legacy-accessor theorem applied to a concrete policy. -/
theorem c7_legacy_accessors_witness :
    c7pol.check_version = .ok ()
    ∧ c7pol.owners = .ok (rolesUnion c7pol Policy.ownerRoles)
    ∧ c7pol.editors = .ok (rolesUnion c7pol Policy.editorRoles)
    ∧ c7pol.viewers = .ok (rolesUnion c7pol Policy.viewerRoles)
    ∧ c7pol.setOwners ["user:z"] = (true, c7pol.setitem OWNER_ROLE ["user:z"]) :=
  ⟨rfl,
   (c7_legacy_accessors c7pol rfl).1,
   (c7_legacy_accessors c7pol rfl).2.1,
   (c7_legacy_accessors c7pol rfl).2.2.1,
   (c7_legacy_accessors c7pol rfl).2.2.2.2.2.2.2.2.2.1 ["user:z"]⟩

/-- C9: role lookup is by object identity, not string equality.  If the
version gate permits access and the policy holds a binding whose role is
`==`-equal to `key` but no binding whose role is the identical object, then
`policy[key]` returns the empty set, `policy[key] = members` appends a second
binding so that two bindings for the `==`-equal role value exist, and
`del policy[key]` raises `KeyError(key)`. -/
theorem c9_lookup_by_identity (p : Policy) (key : PyStr) (b : Binding)
    (hgate : p.check_version = .ok ())
    (hmem : b ∈ p.bindings) (hval : b.role.val = key.val)
    (hid : ∀ x ∈ p.bindings, pyIs x.role key = false) :
    p.getitem key = .ok ∅
    ∧ (p.tupleBindings = false → ∀ v,
        p.setitem key v
          = .ok { p with bindings := p.bindings ++ [{ role := key, members := pySetList v }] }
        ∧ 2 ≤ countValL key.val (p.bindings ++ [{ role := key, members := pySetList v }]))
    ∧ p.delitem key = .error (.keyError key) := by
  have hf : p.bindings.find? (fun x => pyIs x.role key) = none :=
    List.find?_eq_none.mpr (fun x hx => by simp [hid x hx])
  refine ⟨by simp [Policy.getitem, hgate, hf], ?_, by simp [Policy.delitem, hgate, hf]⟩
  intro ht v
  have hsm := setFirstMatch_none_of_forall key (pySetList v) p.bindings hid
  constructor
  · simp [Policy.setitem, hgate, hsm, ht]
  · have hb : b ∈ p.bindings.filter (fun x => x.role.val == key.val) :=
      List.mem_filter.mpr ⟨hmem, by simp [hval]⟩
    have h1 : 1 ≤ (p.bindings.filter (fun x => x.role.val == key.val)).length :=
      List.length_pos.mpr (List.ne_nil_of_mem hb)
    simp only [countValL, List.filter_append]
    simp only [List.length_append]
    have h2 : (List.filter (fun x => x.role.val == key.val)
        [({ role := key, members := pySetList v } : Binding)]).length = 1 := by
      simp
    omega

/-- C9 witness policy: one binding for role value "roles/r" (object id 5). -/
def c9pol : Policy := { bindings := [{ role := ⟨5, "roles/r"⟩, members := ["user:a"] }] }

/-- C9 witness key: same string value, distinct object (id 6). -/
def c9key : PyStr := ⟨6, "roles/r"⟩

/-- C9 witness: the identity-lookup theorem applied to concrete inputs. -/
theorem c9_lookup_by_identity_witness :
    c9pol.getitem c9key = .ok ∅
    ∧ c9pol.setitem c9key ["user:m"]
        = .ok { c9pol with
                  bindings := c9pol.bindings
                    ++ [{ role := c9key, members := pySetList ["user:m"] }] }
    ∧ 2 ≤ countValL c9key.val
        (c9pol.bindings ++ [{ role := c9key, members := pySetList ["user:m"] }])
    ∧ c9pol.delitem c9key = .error (.keyError c9key) :=
  have H := c9_lookup_by_identity c9pol c9key
    { role := ⟨5, "roles/r"⟩, members := ["user:a"] } rfl (by decide) rfl (by decide)
  ⟨H.1, (H.2.1 rfl ["user:m"]).1, (H.2.1 rfl ["user:m"]).2, H.2.2⟩

/-- C10: the member-identifier factory helpers are pure string formatting:
each returns the canonical prefixed identifier of its argument, and the two
constant helpers return the fixed collective identifiers. -/
theorem c10_factory_helpers :
    (∀ email, Policy.user email = "user:" ++ email)
    ∧ (∀ email, Policy.service_account email = "serviceAccount:" ++ email)
    ∧ (∀ email, Policy.group email = "group:" ++ email)
    ∧ (∀ d, Policy.domain d = "domain:" ++ d)
    ∧ Policy.all_users = "allUsers"
    ∧ Policy.authenticated_users = "allAuthenticatedUsers" :=
  ⟨fun _ => rfl, fun _ => rfl, fun _ => rfl, fun _ => rfl, rfl, rfl⟩

end Iam
